import Mathlib

/-!
Shallow embedding of `src/solver/Solver.js` (the CANNON.Solver constraint
solver: constraint accumulator plus iterative projected Gauss-Seidel SPOOK
solver), together with theorems checking the natural-language specification
against it.

Modelling conventions:
* JavaScript numbers that flow through the solver arithmetic are modelled as
  rationals (`ℚ`); Float32 rounding is ignored.  `1/x` at `x = 0` is `0` in
  `ℚ` while JS yields `Infinity`; no theorem below evaluates that branch
  (value theorems assume a regular denominator or a nonzero `eps`).
* The constraint force bounds are special: the source stores arbitrary JS
  values there (`NaN` sentinels, the string literal `'inf'` pushed by
  `addNonPenetrationConstraint`, or `±Infinity` supplied by a caller), and
  tests them with the global `isNaN` and with `<`/`>` relational operators.
  These are modelled by the inductive type `JNum` below, with JS coercion
  semantics (`ToNumber('inf')` is `NaN`; every relational comparison
  involving `NaN` is false).
* The per-body delta arrays are `Float32Array`s.  JS typed arrays drop
  out-of-range writes and yield `undefined` on out-of-range reads.  Writes
  are modelled exactly (`List.set` is the identity out of range; negative
  indices are dropped); an out-of-range read is modelled as `0` and the
  access is recorded in an access log (`SolveState.acc`), so no value
  theorem depends on the out-of-range read result (in real JS it is
  `undefined`, which poisons products to `NaN`); value theorems assume
  valid body indices.
* `new Int16Array(this.i)` in `solve` wraps each body index to 16 bits
  (`toInt16`).
-/

/-- A JS value that can appear in a constraint bound slot (`lower`/`upper`):
an ordinary finite number, `±Infinity`, `NaN`, or the string literal
`'inf'` that `addNonPenetrationConstraint` passes as the upper bound. -/
inductive JNum where
  | num (q : ℚ)
  | inf
  | ninf
  | nan
  | strInf
  deriving DecidableEq, Repr

namespace JNum

/-- JS global `isNaN(x)`: `ToNumber(x)` is `NaN`.  `Number('inf')` is `NaN`
(the string does not parse as a number), so `isNaN('inf')` is true. -/
def jsIsNaN : JNum → Bool
  | num _ => false
  | inf => false
  | ninf => false
  | nan => true
  | strInf => true

/-- JS relational `x < b` for a number `x` and a bound value `b`:
comparisons against `NaN` (including the unparseable string `'inf'`)
are false; `x < Infinity` is true; `x < -Infinity` is false. -/
def ltR (x : ℚ) : JNum → Bool
  | num q => decide (x < q)
  | inf => true
  | ninf => false
  | nan => false
  | strInf => false

/-- JS relational `x > b` for a number `x` and a bound value `b`:
comparisons against `NaN`-like values are false; `x > Infinity` is false;
`x > -Infinity` is true. -/
def gtR (x : ℚ) : JNum → Bool
  | num q => decide (q < x)
  | inf => false
  | ninf => true
  | nan => false
  | strInf => false

/-- The rational content of a bound value.  Only the `num` branch is ever
read by a theorem below (the clamp assignments `lambda[l] = this.lower[l]`
and `lambda[l] = this.upper[l]` fire only under `ltR`/`gtR`, and value
theorems assume the bounds are `ratlike`, excluding `±Infinity`). -/
def ratOf : JNum → ℚ
  | num q => q
  | _ => 0

/-- Bound values whose clamp behaviour the `ℚ`-valued model reproduces
exactly: finite numbers and the `NaN`-like sentinels (for which no clamp
ever fires).  `±Infinity` is excluded: a clamp that assigns `±Infinity`
would leave `ℚ`. -/
def ratlike : JNum → Prop
  | num _ => True
  | nan => True
  | strInf => True
  | inf => False
  | ninf => False

instance : DecidablePred ratlike := by
  intro v
  cases v <;> simp [ratlike] <;> infer_instance

/-- A bound value is finite iff it is an ordinary number (not `NaN`, not
`±Infinity`, not a non-numeric sentinel). -/
def isFinite : JNum → Bool
  | num _ => true
  | _ => false

end JNum

/-- 3-vector over `ℚ`, mirroring `CANNON.Vec3` as used by
`addNonPenetrationConstraint`. -/
structure Vec3 where
  x : ℚ
  y : ℚ
  z : ℚ
  deriving DecidableEq, Repr

namespace Vec3

def vadd (a b : Vec3) : Vec3 := ⟨a.x + b.x, a.y + b.y, a.z + b.z⟩

def vsub (a b : Vec3) : Vec3 := ⟨a.x - b.x, a.y - b.y, a.z - b.z⟩

def cross (a b : Vec3) : Vec3 :=
  ⟨a.y * b.z - a.z * b.y, a.z * b.x - a.x * b.z, a.x * b.y - a.y * b.x⟩

def dot (a b : Vec3) : ℚ := a.x * b.x + a.y * b.y + a.z * b.z

end Vec3

/-- The state held by a `CANNON.Solver` object: SPOOK parameters set at
construction, the flat per-constraint arrays managed by
`reset`/`addConstraint`, and the six per-body delta arrays. -/
structure Solver where
  a : ℚ
  b : ℚ
  eps : ℚ
  k : ℚ
  d : ℚ
  iterations : ℕ
  h : ℚ
  G : List ℚ
  MinvTrace : List ℚ
  Fext : List ℚ
  q : List ℚ
  qdot : List ℚ
  n : ℕ
  upper : List JNum
  lower : List JNum
  hasupper : List Bool
  haslower : List Bool
  i : List Int
  j : List Int
  vxlambda : List ℚ
  vylambda : List ℚ
  vzlambda : List ℚ
  wxlambda : List ℚ
  wylambda : List ℚ
  wzlambda : List ℚ
  deriving DecidableEq, Repr

namespace Solver

/-- `CANNON.Solver.prototype.reset(numbodies)`: empties every
per-constraint array, sets `n = 0`, and allocates six zero-filled
per-body delta arrays of length `numbodies`. -/
def reset (s : Solver) (numbodies : ℕ) : Solver :=
  { s with
    G := [], MinvTrace := [], Fext := [], q := [], qdot := []
    n := 0
    upper := [], lower := [], hasupper := [], haslower := []
    i := [], j := []
    vxlambda := List.replicate numbodies 0
    vylambda := List.replicate numbodies 0
    vzlambda := List.replicate numbodies 0
    wxlambda := List.replicate numbodies 0
    wylambda := List.replicate numbodies 0
    wzlambda := List.replicate numbodies 0 }

/-- The `CANNON.Solver(a,b,eps,k,d,iter,h)` constructor.  `iter || 10` and
`h || 1/60` treat a missing or zero argument as falsy, so passing `0`
yields the default.  The remaining fields are overwritten by `reset 0`
before first use; the pre-`reset` array fields are immaterial and set
empty. -/
def init (a b eps k d : ℚ) (iter : Option ℕ) (h : Option ℚ) : Solver :=
  reset
    { a := a, b := b, eps := eps, k := k, d := d
      iterations := match iter with
        | none => 10
        | some it => if it = 0 then 10 else it
      h := match h with
        | none => 1 / 60
        | some hv => if hv = 0 then 1 / 60 else hv
      G := [], MinvTrace := [], Fext := [], q := [], qdot := [], n := 0
      upper := [], lower := [], hasupper := [], haslower := [], i := [], j := []
      vxlambda := [], vylambda := [], vzlambda := []
      wxlambda := [], wylambda := [], wzlambda := [] }
    0

/-- `CANNON.Solver.prototype.addConstraint(G,MinvTrace,q,qdot,Fext,lower,
upper,body_i,body_j)`: pushes the 12 entries of each row onto the flat
arrays (the source loop `for(var i=0;i<12;i++)` with a well-formed
12-element argument), pushes the bounds with their `!isNaN` presence
flags and the body indices, increments `n`, and returns the new
constraint's index `n - 1`.  The result is the updated state paired with
the returned index. -/
def addConstraint (s : Solver) (G MinvTrace q qdot Fext : Fin 12 → ℚ)
    (lower upper : JNum) (body_i body_j : Int) : Solver × ℕ :=
  ({ s with
      q := s.q ++ List.ofFn q
      qdot := s.qdot ++ List.ofFn qdot
      MinvTrace := s.MinvTrace ++ List.ofFn MinvTrace
      G := s.G ++ List.ofFn G
      Fext := s.Fext ++ List.ofFn Fext
      upper := s.upper ++ [upper]
      hasupper := s.hasupper ++ [!upper.jsIsNaN]
      lower := s.lower ++ [lower]
      haslower := s.haslower ++ [!lower.jsIsNaN]
      i := s.i ++ [body_i]
      j := s.j ++ [body_j]
      n := s.n + 1 },
    s.n)

/-- The Jacobian row `[-ni, -(ri x ni), ni, ri x ni]` that
`addNonPenetrationConstraint` builds (the same `rxn = ri.cross(ni)` is
used for both bodies' angular blocks). -/
def npG (ni ri : Vec3) : Fin 12 → ℚ :=
  let rxn := ri.cross ni
  ![-ni.x, -ni.y, -ni.z, -rxn.x, -rxn.y, -rxn.z,
    ni.x, ni.y, ni.z, rxn.x, rxn.y, rxn.z]

/-- The inverse mass/inertia row built by `addNonPenetrationConstraint`.
The angular entries repeat the source's literal component choice
`iIi.z, iIi.y, iIi.z` (the `z` component appears twice). -/
def npMinv (iMi iMj iIi iIj : Vec3) : Fin 12 → ℚ :=
  ![iMi.x, iMi.y, iMi.z, iIi.z, iIi.y, iIi.z,
    iMj.x, iMj.y, iMj.z, iIj.z, iIj.y, iIj.z]

/-- The constraint-violation row `[-qvec, 0,0,0, qvec, 0,0,0]` built by
`addNonPenetrationConstraint`. -/
def npQ (qvec : Vec3) : Fin 12 → ℚ :=
  ![-qvec.x, -qvec.y, -qvec.z, 0, 0, 0, qvec.x, qvec.y, qvec.z, 0, 0, 0]

/-- The violation-derivative row `[-u, 0,0,0, u, 0,0,0]` built by
`addNonPenetrationConstraint`, where `u = vj - vi`. -/
def npQdot (u : Vec3) : Fin 12 → ℚ :=
  ![-u.x, -u.y, -u.z, 0, 0, 0, u.x, u.y, u.z, 0, 0, 0]

/-- The external-force row `[fi, taui, fj, tauj]` built by
`addNonPenetrationConstraint`. -/
def npFext (fi fj taui tauj : Vec3) : Fin 12 → ℚ :=
  ![fi.x, fi.y, fi.z, taui.x, taui.y, taui.z,
    fj.x, fj.y, fj.z, tauj.x, tauj.y, tauj.z]

/-- The signed separation `q = ((xj + rj) - (xi + ri)) . ni` computed by
`addNonPenetrationConstraint`. -/
def npDepth (xi xj ni ri rj : Vec3) : ℚ :=
  (((xj.vadd rj).vsub (xi.vadd ri)).dot ni)

/-- `CANNON.Solver.prototype.addNonPenetrationConstraint(i,j,xi,xj,ni,ri,
rj,iMi,iMj,iIi,iIj,vi,vj,wi,wj,fi,fj,taui,tauj)`: computes
`qvec = (xj+rj) - (xi+ri)` and `q = qvec . ni`; when `q < 0` calls
`addConstraint` with the contact rows, `lower = 0` and the string literal
`'inf'` as upper bound (modelled as `JNum.strInf`); otherwise leaves the
state unchanged (the source returns without doing anything). -/
def addNonPenetrationConstraint (s : Solver) (bi bj : Int)
    (xi xj ni ri rj iMi iMj iIi iIj vi vj wi wj fi fj taui tauj : Vec3) :
    Solver :=
  let u := vj.vsub vi
  let qvec := (xj.vadd rj).vsub (xi.vadd ri)
  let qd := qvec.dot ni
  if qd < 0 then
    (s.addConstraint (npG ni ri) (npMinv iMi iMj iIi iIj) (npQ qvec)
      (npQdot u) (npFext fi fj taui tauj) (JNum.num 0) JNum.strInf bi bj).1
  else
    s

end Solver

/-- `ToInt16` wrap, performed by `this.i = new Int16Array(this.i)` at the
top of `solve` (the `j` array is not converted). -/
def toInt16 (x : Int) : Int := (x + 32768) % 65536 - 32768

/-- Read of a `Float32Array` at a possibly out-of-range index.  JS returns
`undefined` out of range (which poisons subsequent arithmetic to `NaN`);
the model returns `0` there, records every access in `SolveState.acc`,
and no value theorem depends on an out-of-range read. -/
def readBody (arr : List ℚ) (idx : Int) : ℚ :=
  if h : 0 ≤ idx ∧ idx.toNat < arr.length then arr.get ⟨idx.toNat, h.2⟩ else 0

/-- Write to a `Float32Array` at a possibly out-of-range index: JS typed
arrays silently drop out-of-range stores (`List.set` already ignores
indices past the end; a negative index is dropped explicitly). -/
def writeBody (arr : List ℚ) (idx : Int) (v : ℚ) : List ℚ :=
  if 0 ≤ idx then arr.set idx.toNat v else arr

/-- The `arr[idx] += v` pattern of the velocity-propagation block. -/
def addAt (arr : List ℚ) (idx : Int) (v : ℚ) : List ℚ :=
  writeBody arr idx (readBody arr idx + v)

/-- The per-`solve` working state: the local arrays `lambda`, `dlambda`,
`B`, `c`, `precomp` of the source (all zero-initialised, sized `n`) plus
the six shared per-body delta arrays `this.v*lambda`/`this.w*lambda` that
the loop mutates in place, and an access log `acc` recording the body
index of every delta-array read/write group the inner loop performs. -/
structure SolveState where
  lambda : List ℚ
  dlambda : List ℚ
  B : List ℚ
  c : List ℚ
  precomp : List Bool
  vx : List ℚ
  vy : List ℚ
  vz : List ℚ
  wx : List ℚ
  wy : List ℚ
  wz : List ℚ
  acc : List Int
  deriving DecidableEq, Repr

namespace Solver

/-- Body index `this.i[l]` (read inside `solve`, after the `Int16Array`
conversion has been applied to the `i` field). -/
def bodyI (s : Solver) (l : ℕ) : Int := s.i.getD l 0

/-- Body index `this.j[l]` (never converted; `-1` flows through as is). -/
def bodyJ (s : Solver) (l : ℕ) : Int := s.j.getD l 0

/-- `G_Minv_Gt` for constraint `l`: the loop accumulating
`G[addi] * MinvTrace[addi] * G[addi]` over the 12 slots. -/
def gMinvGt (s : Solver) (l : ℕ) : ℚ :=
  ∑ i ∈ Finset.range 12,
    s.G.getD (12 * l + i) 0 * s.MinvTrace.getD (12 * l + i) 0 *
      s.G.getD (12 * l + i) 0

/-- `Gq` for constraint `l`: `Σ G[addi] * q[addi]` over the 12 slots. -/
def gQ (s : Solver) (l : ℕ) : ℚ :=
  ∑ i ∈ Finset.range 12, s.G.getD (12 * l + i) 0 * s.q.getD (12 * l + i) 0

/-- `GW` for constraint `l`: `Σ G[addi] * qdot[addi]` over the 12 slots. -/
def gW (s : Solver) (l : ℕ) : ℚ :=
  ∑ i ∈ Finset.range 12, s.G.getD (12 * l + i) 0 * s.qdot.getD (12 * l + i) 0

/-- `GMinvf` for constraint `l`: `Σ G[addi] * MinvTrace[addi] * Fext[addi]`
over the 12 slots. -/
def gMinvF (s : Solver) (l : ℕ) : ℚ :=
  ∑ i ∈ Finset.range 12,
    s.G.getD (12 * l + i) 0 * s.MinvTrace.getD (12 * l + i) 0 *
      s.Fext.getD (12 * l + i) 0

/-- The lazily precomputed pair `(c[l], B[l])`:
`c[l] = 1.0 / (G_Minv_Gt + eps)` and
`B[l] = -a*Gq - b*GW - h*GMinvf`.  (In `ℚ`, `1/0 = 0` whereas JS would
give `Infinity` for a zero denominator; no theorem evaluates that case.) -/
def precompVals (s : Solver) (l : ℕ) : ℚ × ℚ :=
  (1 / (gMinvGt s l + s.eps),
   -s.a * gQ s l - s.b * gW s l - s.h * gMinvF s l)

/-- The `(c[l], B[l])` pair the inner-loop body uses for constraint `l`:
the cached values when `precomp[l]` is set, the freshly computed pair on
first touch. -/
def cBUsed (s : Solver) (st : SolveState) (l : ℕ) : ℚ × ℚ :=
  if st.precomp.getD l false then (st.c.getD l 0, st.B.getD l 0)
  else precompVals s l

/-- `Gulambda`: the twelve explicit accumulations
`G[0+l12]*vxlambda[body_i] + ... + G[11+l12]*wzlambda[body_j]` of the
source, reading the current per-body delta arrays. -/
def gu (s : Solver) (st : SolveState) (l : ℕ) : ℚ :=
  let l12 := 12 * l
  let bi := s.bodyI l
  let bj := s.bodyJ l
  s.G.getD (0 + l12) 0 * readBody st.vx bi
    + s.G.getD (1 + l12) 0 * readBody st.vy bi
    + s.G.getD (2 + l12) 0 * readBody st.vz bi
    + s.G.getD (3 + l12) 0 * readBody st.wx bi
    + s.G.getD (4 + l12) 0 * readBody st.wy bi
    + s.G.getD (5 + l12) 0 * readBody st.wz bi
    + s.G.getD (6 + l12) 0 * readBody st.vx bj
    + s.G.getD (7 + l12) 0 * readBody st.vy bj
    + s.G.getD (8 + l12) 0 * readBody st.vz bj
    + s.G.getD (9 + l12) 0 * readBody st.wx bj
    + s.G.getD (10 + l12) 0 * readBody st.wy bj
    + s.G.getD (11 + l12) 0 * readBody st.wz bj

/-- `dlambda[l] = c[l] * (B[l] - Gulambda - eps * lambda[l])` with the
`(c, B)` pair in use this pass. -/
def dlamNew (s : Solver) (st : SolveState) (l : ℕ) : ℚ :=
  (cBUsed s st l).1 * ((cBUsed s st l).2 - gu s st l - s.eps * st.lambda.getD l 0)

/-- `lambda[l] + dlambda[l]`: the unclamped accumulated impulse. -/
def lamNew (s : Solver) (st : SolveState) (l : ℕ) : ℚ :=
  st.lambda.getD l 0 + dlamNew s st l

/-- The lower-clamp guard `this.haslower[l] && lambda[l] < this.lower[l]`
(JS relational semantics for the bound value, so false for `NaN`-like
bounds). -/
def lowerFires (s : Solver) (st : SolveState) (l : ℕ) : Bool :=
  s.haslower.getD l false && JNum.ltR (lamNew s st l) (s.lower.getD l JNum.nan)

/-- `lambda[l]` after the lower clamp (`lambda[l] = this.lower[l]` when the
guard fires). -/
def lamAfterLower (s : Solver) (st : SolveState) (l : ℕ) : ℚ :=
  if lowerFires s st l then (s.lower.getD l JNum.nan).ratOf
  else lamNew s st l

/-- `dlambda[l]` after the lower clamp: the source recomputes
`dlambda[l] = this.lower[l] - lambda[l]` with `lambda[l]` already
overwritten by the bound, so the recomputed value is `0`. -/
def dlamAfterLower (s : Solver) (st : SolveState) (l : ℕ) : ℚ :=
  if lowerFires s st l then (s.lower.getD l JNum.nan).ratOf - lamAfterLower s st l
  else dlamNew s st l

/-- Truthiness of the `this.hasupper` array in the upper-clamp guard: a JS
array is an object and objects are always truthy, so the guard never
consults the per-constraint flag. -/
def arrayTruthy (xs : List Bool) : Bool := true

/-- The upper-clamp guard `this.hasupper && lambda[l] > this.upper[l]`: the
source tests the flag array itself (always truthy), not `hasupper[l]`. -/
def upperFires (s : Solver) (st : SolveState) (l : ℕ) : Bool :=
  arrayTruthy s.hasupper &&
    JNum.gtR (lamAfterLower s st l) (s.upper.getD l JNum.nan)

/-- `lambda[l]` after both clamps. -/
def lamFinal (s : Solver) (st : SolveState) (l : ℕ) : ℚ :=
  if upperFires s st l then (s.upper.getD l JNum.nan).ratOf
  else lamAfterLower s st l

/-- `dlambda[l]` after both clamps: as for the lower clamp, the recomputed
`this.upper[l] - lambda[l]` reads the already-overwritten `lambda[l]`. -/
def dlamFinal (s : Solver) (st : SolveState) (l : ℕ) : ℚ :=
  if upperFires s st l then (s.upper.getD l JNum.nan).ratOf - lamFinal s st l
  else dlamAfterLower s st l

/-- One inner-loop body of `solve` for constraint `l`: lazy precompute of
`c[l]`/`B[l]`, the `dlambda`/`lambda` update, the two bound clamps, and
the velocity propagation `this.v*lambda[body] += dlambda[l] * MinvTrace *
G` (body `i`'s six slots first, then body `j`'s, exactly as the source
orders the stores).  The accessed body indices are appended to the log. -/
def solveStep (s : Solver) (st : SolveState) (l : ℕ) : SolveState :=
  let l12 := 12 * l
  let bi := s.bodyI l
  let bj := s.bodyJ l
  let dl := dlamFinal s st l
  let st1 :=
    if st.precomp.getD l false then st
    else
      { st with
        c := st.c.set l (precompVals s l).1
        B := st.B.set l (precompVals s l).2
        precomp := st.precomp.set l true }
  { st1 with
    dlambda := st1.dlambda.set l dl
    lambda := st1.lambda.set l (lamFinal s st l)
    vx := addAt (addAt st.vx bi (dl * s.MinvTrace.getD (l12 + 0) 0 * s.G.getD (l12 + 0) 0))
            bj (dl * s.MinvTrace.getD (l12 + 6) 0 * s.G.getD (l12 + 6) 0)
    vy := addAt (addAt st.vy bi (dl * s.MinvTrace.getD (l12 + 1) 0 * s.G.getD (l12 + 1) 0))
            bj (dl * s.MinvTrace.getD (l12 + 7) 0 * s.G.getD (l12 + 7) 0)
    vz := addAt (addAt st.vz bi (dl * s.MinvTrace.getD (l12 + 2) 0 * s.G.getD (l12 + 2) 0))
            bj (dl * s.MinvTrace.getD (l12 + 8) 0 * s.G.getD (l12 + 8) 0)
    wx := addAt (addAt st.wx bi (dl * s.MinvTrace.getD (l12 + 3) 0 * s.G.getD (l12 + 3) 0))
            bj (dl * s.MinvTrace.getD (l12 + 9) 0 * s.G.getD (l12 + 9) 0)
    wy := addAt (addAt st.wy bi (dl * s.MinvTrace.getD (l12 + 4) 0 * s.G.getD (l12 + 4) 0))
            bj (dl * s.MinvTrace.getD (l12 + 10) 0 * s.G.getD (l12 + 10) 0)
    wz := addAt (addAt st.wz bi (dl * s.MinvTrace.getD (l12 + 5) 0 * s.G.getD (l12 + 5) 0))
            bj (dl * s.MinvTrace.getD (l12 + 11) 0 * s.G.getD (l12 + 11) 0)
    acc := st.acc ++ [bi, bj] }

/-- One sweep of the inner loop: constraints `0, 1, ..., n-1` in index
order. -/
def sweep (s : Solver) (st : SolveState) : SolveState :=
  (List.range s.n).foldl (solveStep s) st

/-- The outer loop: `iterations` consecutive sweeps. -/
def solveLoop (s : Solver) : ℕ → SolveState → SolveState
  | 0, st => st
  | Nat.succ kk, st => solveLoop s kk (sweep s st)

/-- The solve-local state as `solve` sets it up: `lambda`, `dlambda`, `B`,
`c` zero-filled and `precomp` false-filled (all sized `n` as the zero-
initialised typed arrays of the source; the allocated-but-never-used
`ulambda` array is omitted); the per-body delta fields alias
`this.v*lambda`/`this.w*lambda` as they stand at the call. -/
def initState (s : Solver) : SolveState :=
  { lambda := List.replicate s.n 0
    dlambda := List.replicate s.n 0
    B := List.replicate s.n 0
    c := List.replicate s.n 0
    precomp := List.replicate s.n false
    vx := s.vxlambda, vy := s.vylambda, vz := s.vzlambda
    wx := s.wxlambda, wy := s.wylambda, wz := s.wzlambda
    acc := [] }

/-- `CANNON.Solver.prototype.solve()`: converts `this.i` to 16-bit
integers, runs `iterations` Gauss-Seidel sweeps over the `n` constraints,
and stores the accumulated per-body deltas back on the object.  The
result pairs the updated solver with the final solve-local state (whose
`lambda`/`dlambda` arrays are locals in the source, exposed here so that
theorems can speak about them). -/
def solve (s : Solver) : Solver × SolveState :=
  let sc := { s with i := s.i.map toInt16 }
  let st := solveLoop sc sc.iterations (initState sc)
  ({ sc with
      vxlambda := st.vx, vylambda := st.vy, vzlambda := st.vz
      wxlambda := st.wx, wylambda := st.wy, wzlambda := st.wz },
   st)

/-- The spec's lockstep-size invariant: the five flat arrays have length
`12 * n` and the per-constraint arrays have length `n`. -/
def WellSized (s : Solver) : Prop :=
  s.G.length = 12 * s.n ∧ s.MinvTrace.length = 12 * s.n ∧
  s.Fext.length = 12 * s.n ∧ s.q.length = 12 * s.n ∧
  s.qdot.length = 12 * s.n ∧
  s.upper.length = s.n ∧ s.lower.length = s.n ∧
  s.hasupper.length = s.n ∧ s.haslower.length = s.n ∧
  s.i.length = s.n ∧ s.j.length = s.n

instance (s : Solver) : Decidable (WellSized s) := by
  unfold WellSized
  infer_instance

/-- Per-degree-of-freedom read of the per-body delta arrays: slot `0..5`
selects `vx, vy, vz, wx, wy, wz` for the body at `idx` (used to phrase
the spec-side dot product). -/
def deltaAt (st : SolveState) (slot : ℕ) (idx : Int) : ℚ :=
  match slot with
  | 0 => readBody st.vx idx
  | 1 => readBody st.vy idx
  | 2 => readBody st.vz idx
  | 3 => readBody st.wx idx
  | 4 => readBody st.wy idx
  | _ => readBody st.wz idx

/-- The spec's description of `Gu`: the dot product of constraint `l`'s
Jacobian row with the current per-body velocity deltas, the first six
slots against body `bodyIndexI`, the last six against `bodyIndexJ`. -/
def jacDotDeltas (s : Solver) (st : SolveState) (l : ℕ) : ℚ :=
  (∑ kk ∈ Finset.range 6, s.G.getD (kk + 12 * l) 0 * deltaAt st kk (s.bodyI l))
    + ∑ kk ∈ Finset.range 6,
        s.G.getD (6 + kk + 12 * l) 0 * deltaAt st kk (s.bodyJ l)

/-- The cache is coherent at `l`: whenever the precomputed flag is set,
the stored `c[l]`/`B[l]` are the values the lazy precompute produces.
Holds for every state the solve loop reaches, since the flag is set
exactly when the pair is stored. -/
def Cached (s : Solver) (st : SolveState) (l : ℕ) : Prop :=
  st.precomp.getD l false = true →
    st.c.getD l 0 = (precompVals s l).1 ∧ st.B.getD l 0 = (precompVals s l).2

/-- The solve-local arrays are sized to `n` (as `solve` allocates them). -/
def SizedState (s : Solver) (st : SolveState) : Prop :=
  st.lambda.length = s.n ∧ st.dlambda.length = s.n ∧ st.B.length = s.n ∧
  st.c.length = s.n ∧ st.precomp.length = s.n

/-- Constraint `l` is a unilateral push-apart constraint in the sense of
the non-negativity claim, with the proviso forced by the upper-clamp
behaviour: present lower bound `0`, and an upper bound that cannot clamp
below `0` (a `NaN`-like sentinel, for which no upper clamp ever fires, or
a non-negative number). -/
def GoodL (s : Solver) (l : ℕ) : Prop :=
  s.haslower.getD l false = true ∧ s.lower.getD l JNum.nan = JNum.num 0 ∧
  (s.upper.getD l JNum.nan = JNum.nan ∨ s.upper.getD l JNum.nan = JNum.strInf ∨
    ∃ u, s.upper.getD l JNum.nan = JNum.num u ∧ 0 ≤ u)

/-- The non-negativity invariant: every `GoodL` constraint has a
non-negative accumulated impulse. -/
def LamInv (s : Solver) (st : SolveState) : Prop :=
  ∀ l, GoodL s l → 0 ≤ st.lambda.getD l 0

/-- All stored bounds are `ratlike` (finite numbers or `NaN`-like
sentinels): the region where the `ℚ`-valued clamp model agrees exactly
with the JS arithmetic. -/
def RatlikeBounds (s : Solver) : Prop :=
  ∀ l, (s.lower.getD l JNum.nan).ratlike ∧ (s.upper.getD l JNum.nan).ratlike

/-- All body indices of live constraints address the per-body delta
arrays in range (and `i` is small enough for the `Int16Array` conversion
to be the identity): the region where the model's delta-array reads agree
exactly with the JS typed-array reads. -/
def InRangeIdx (s : Solver) : Prop :=
  ∀ l, l < s.n →
    0 ≤ s.bodyI l ∧ s.bodyI l < 32768 ∧
      (s.bodyI l).toNat < s.vxlambda.length ∧
      0 ≤ s.bodyJ l ∧ (s.bodyJ l).toNat < s.vxlambda.length

/-- A call to one of the two accumulator entry points, used to quantify
over arbitrary call sequences between a `reset` and a `solve`. -/
inductive SolverOp where
  | add (G MinvTrace q qdot Fext : Fin 12 → ℚ) (lower upper : JNum)
      (body_i body_j : Int)
  | addNP (bi bj : Int)
      (xi xj ni ri rj iMi iMj iIi iIj vi vj wi wj fi fj taui tauj : Vec3)

/-- Apply one accumulator call. -/
def applyOp (s : Solver) : SolverOp → Solver
  | .add G M q qd F lo up bi bj => (s.addConstraint G M q qd F lo up bi bj).1
  | .addNP bi bj xi xj ni ri rj iMi iMj iIi iIj vi vj wi wj fi fj taui tauj =>
      s.addNonPenetrationConstraint bi bj xi xj ni ri rj iMi iMj iIi iIj
        vi vj wi wj fi fj taui tauj

/-- Apply a sequence of accumulator calls in order. -/
def applyOps (s : Solver) (ops : List SolverOp) : Solver :=
  ops.foldl applyOp s

end Solver

open Solver

theorem getD_set_self {α : Type} (L : List α) {idx : ℕ} (a d : α)
    (h : idx < L.length) : (L.set idx a).getD idx d = a := by
  simp [List.getD_eq_getElem?_getD, List.getElem?_set, h]

theorem getD_set_ne {α : Type} (L : List α) {idx m : ℕ} (a d : α)
    (h : idx ≠ m) : (L.set idx a).getD m d = L.getD m d := by
  simp [List.getD_eq_getElem?_getD, List.getElem?_set, h]

theorem set_getElem_eq_self (L : List ℚ) (idx : ℕ) (h : idx < L.length) :
    L.set idx L[idx] = L := by
  apply List.ext_getElem (by simp)
  intro m h1 h2
  simp [List.getElem_set]
  intro hnm
  subst hnm
  rfl

theorem addAt_zero (arr : List ℚ) (idx : Int) : addAt arr idx 0 = arr := by
  by_cases h0 : 0 ≤ idx
  · by_cases hr : idx.toNat < arr.length
    · simp [addAt, writeBody, readBody, h0, hr]
      exact set_getElem_eq_self arr idx.toNat hr
    · simp [addAt, writeBody, readBody, h0, hr,
        List.set_eq_of_length_le (Nat.le_of_not_lt hr)]
  · simp [addAt, writeBody, readBody, h0]

theorem reset_wellSized (s : Solver) (nb : ℕ) : WellSized (s.reset nb) := by
  simp [Solver.reset, WellSized]

theorem addConstraint_wellSized (s : Solver)
    (G M q qd F : Fin 12 → ℚ) (lo up : JNum) (bi bj : Int)
    (hs : WellSized s) :
    WellSized (s.addConstraint G M q qd F lo up bi bj).1 := by
  obtain ⟨h1, h2, h3, h4, h5, h6, h7, h8, h9, h10, h11⟩ := hs
  simp [Solver.addConstraint, WellSized, h1, h2, h3, h4, h5, h6, h7, h8,
    h9, h10, h11, Nat.mul_add]

theorem addNonPenetration_wellSized (s : Solver) (bi bj : Int)
    (xi xj ni ri rj iMi iMj iIi iIj vi vj wi wj fi fj taui tauj : Vec3)
    (hs : WellSized s) :
    WellSized (s.addNonPenetrationConstraint bi bj xi xj ni ri rj iMi iMj
      iIi iIj vi vj wi wj fi fj taui tauj) := by
  simp only [Solver.addNonPenetrationConstraint]
  split
  · exact addConstraint_wellSized _ _ _ _ _ _ _ _ _ _ hs
  · exact hs

theorem applyOp_wellSized (s : Solver) (op : SolverOp) (hs : WellSized s) :
    WellSized (applyOp s op) := by
  cases op with
  | add G M q qd F lo up bi bj => exact addConstraint_wellSized _ _ _ _ _ _ _ _ _ _ hs
  | addNP bi bj xi xj ni ri rj iMi iMj iIi iIj vi vj wi wj fi fj taui tauj =>
      exact addNonPenetration_wellSized s bi bj xi xj ni ri rj iMi iMj iIi iIj
        vi vj wi wj fi fj taui tauj hs

theorem applyOps_wellSized (ops : List SolverOp) (s : Solver)
    (hs : WellSized s) : WellSized (applyOps s ops) := by
  induction ops generalizing s with
  | nil => exact hs
  | cons op rest ih => exact ih _ (applyOp_wellSized s op hs)

theorem solve_wellSized (s : Solver) (hs : WellSized s) :
    WellSized (s.solve).1 := by
  obtain ⟨h1, h2, h3, h4, h5, h6, h7, h8, h9, h10, h11⟩ := hs
  simp [Solver.solve, WellSized, h1, h2, h3, h4, h5, h6, h7, h8, h9, h10, h11]

/-- C7: after `reset(bodyCount)` and any sequence of accumulator calls the
five flat arrays `G`, `MinvTrace`, `q`, `qdot`, `Fext` have length exactly
`12 * n` and the per-constraint arrays `lower`, `upper`, `hasupper`,
`haslower`, `i`, `j` have length `n`; the invariant also survives
`solve`. -/
theorem wellSized_after_reset_and_ops (s : Solver) (nb : ℕ)
    (ops : List SolverOp) :
    WellSized (applyOps (s.reset nb) ops) ∧
      WellSized ((applyOps (s.reset nb) ops).solve).1 := by
  have h := applyOps_wellSized ops _ (reset_wellSized s nb)
  exact ⟨h, solve_wellSized _ h⟩

theorem applyOp_preserves_deltas (s : Solver) (op : SolverOp) :
    (applyOp s op).vxlambda = s.vxlambda ∧
    (applyOp s op).vylambda = s.vylambda ∧
    (applyOp s op).vzlambda = s.vzlambda ∧
    (applyOp s op).wxlambda = s.wxlambda ∧
    (applyOp s op).wylambda = s.wylambda ∧
    (applyOp s op).wzlambda = s.wzlambda ∧
    (applyOp s op).iterations = s.iterations := by
  cases op with
  | add G M q qd F lo up bi bj => simp [applyOp, Solver.addConstraint]
  | addNP bi bj xi xj ni ri rj iMi iMj iIi iIj vi vj wi wj fi fj taui tauj =>
      simp only [applyOp, Solver.addNonPenetrationConstraint]
      split <;> simp [Solver.addConstraint]

theorem applyOps_preserves_deltas (ops : List SolverOp) (s : Solver) :
    (applyOps s ops).vxlambda = s.vxlambda ∧
    (applyOps s ops).vylambda = s.vylambda ∧
    (applyOps s ops).vzlambda = s.vzlambda ∧
    (applyOps s ops).wxlambda = s.wxlambda ∧
    (applyOps s ops).wylambda = s.wylambda ∧
    (applyOps s ops).wzlambda = s.wzlambda ∧
    (applyOps s ops).iterations = s.iterations := by
  induction ops generalizing s with
  | nil => exact ⟨rfl, rfl, rfl, rfl, rfl, rfl, rfl⟩
  | cons op rest ih =>
      have h1 := applyOp_preserves_deltas s op
      have h2 := ih (applyOp s op)
      exact ⟨h2.1.trans h1.1, h2.2.1.trans h1.2.1, h2.2.2.1.trans h1.2.2.1,
        h2.2.2.2.1.trans h1.2.2.2.1, h2.2.2.2.2.1.trans h1.2.2.2.2.1,
        h2.2.2.2.2.2.1.trans h1.2.2.2.2.2.1, h2.2.2.2.2.2.2.trans h1.2.2.2.2.2.2⟩

/-- C8: with the `iterations` property equal to `0` (the knob whose
constructor default is `10`), `solve` performs no sweep and leaves all six
per-body delta arrays exactly as `reset(bodyCount)` created them — all
zeros — regardless of the accumulator calls made in between. -/
theorem solve_zero_iterations_no_op (s : Solver) (nb : ℕ)
    (ops : List SolverOp) (h0 : s.iterations = 0) :
    ((applyOps (s.reset nb) ops).solve).1.vxlambda = List.replicate nb 0 ∧
    ((applyOps (s.reset nb) ops).solve).1.vylambda = List.replicate nb 0 ∧
    ((applyOps (s.reset nb) ops).solve).1.vzlambda = List.replicate nb 0 ∧
    ((applyOps (s.reset nb) ops).solve).1.wxlambda = List.replicate nb 0 ∧
    ((applyOps (s.reset nb) ops).solve).1.wylambda = List.replicate nb 0 ∧
    ((applyOps (s.reset nb) ops).solve).1.wzlambda = List.replicate nb 0 := by
  have hp := applyOps_preserves_deltas ops (s.reset nb)
  have hit : (applyOps (s.reset nb) ops).iterations = 0 := by
    rw [hp.2.2.2.2.2.2, Solver.reset, h0]
  have hsolve :
      ((applyOps (s.reset nb) ops).solve).1.vxlambda
          = (applyOps (s.reset nb) ops).vxlambda ∧
      ((applyOps (s.reset nb) ops).solve).1.vylambda
          = (applyOps (s.reset nb) ops).vylambda ∧
      ((applyOps (s.reset nb) ops).solve).1.vzlambda
          = (applyOps (s.reset nb) ops).vzlambda ∧
      ((applyOps (s.reset nb) ops).solve).1.wxlambda
          = (applyOps (s.reset nb) ops).wxlambda ∧
      ((applyOps (s.reset nb) ops).solve).1.wylambda
          = (applyOps (s.reset nb) ops).wylambda ∧
      ((applyOps (s.reset nb) ops).solve).1.wzlambda
          = (applyOps (s.reset nb) ops).wzlambda := by
    simp [Solver.solve, hit, Solver.solveLoop, Solver.initState]
  have hreset : (s.reset nb).vxlambda = List.replicate nb (0 : ℚ) ∧
      (s.reset nb).vylambda = List.replicate nb (0 : ℚ) ∧
      (s.reset nb).vzlambda = List.replicate nb (0 : ℚ) ∧
      (s.reset nb).wxlambda = List.replicate nb (0 : ℚ) ∧
      (s.reset nb).wylambda = List.replicate nb (0 : ℚ) ∧
      (s.reset nb).wzlambda = List.replicate nb (0 : ℚ) := by
    simp [Solver.reset]
  exact ⟨hsolve.1.trans (hp.1.trans hreset.1),
    hsolve.2.1.trans (hp.2.1.trans hreset.2.1),
    hsolve.2.2.1.trans (hp.2.2.1.trans hreset.2.2.1),
    hsolve.2.2.2.1.trans (hp.2.2.2.1.trans hreset.2.2.2.1),
    hsolve.2.2.2.2.1.trans (hp.2.2.2.2.1.trans hreset.2.2.2.2.1),
    hsolve.2.2.2.2.2.trans (hp.2.2.2.2.2.1.trans hreset.2.2.2.2.2)⟩

/-- C8 witness: a concrete solver with the `iterations` property set to
`0`, two bodies and one accumulator call; all six delta arrays come out of
`solve` as the zero arrays `reset` created. -/
theorem solve_zero_iterations_no_op_witness :
    ({ Solver.init 0 0 1 0 0 none none with iterations := 0 } : Solver).iterations = 0 ∧
    ((applyOps (({ Solver.init 0 0 1 0 0 none none with iterations := 0 } : Solver).reset 2)
        [SolverOp.add (fun _ => 1) (fun _ => 1) (fun _ => 1) (fun _ => 1)
          (fun _ => 1) (JNum.num 0) JNum.strInf 0 1]).solve).1.vxlambda
      = List.replicate 2 0 :=
  ⟨rfl,
   (solve_zero_iterations_no_op
      { Solver.init 0 0 1 0 0 none none with iterations := 0 } 2
      [SolverOp.add (fun _ => 1) (fun _ => 1) (fun _ => 1) (fun _ => 1)
        (fun _ => 1) (JNum.num 0) JNum.strInf 0 1] rfl).1⟩

/-- C2: a call of `addNonPenetrationConstraint` whose signed separation
`q = ((xj + rj) - (xi + ri)) . ni` is non-negative leaves the whole solver
state unchanged: `n` stays the same and nothing is appended to any
array. -/
theorem addNonPenetration_skip_on_separation (s : Solver) (bi bj : Int)
    (xi xj ni ri rj iMi iMj iIi iIj vi vj wi wj fi fj taui tauj : Vec3)
    (hq : 0 ≤ npDepth xi xj ni ri rj) :
    s.addNonPenetrationConstraint bi bj xi xj ni ri rj iMi iMj iIi iIj
      vi vj wi wj fi fj taui tauj = s := by
  simp only [Solver.addNonPenetrationConstraint]
  rw [if_neg (not_lt.mpr (by simpa [npDepth] using hq))]

/-- C2 witness: a concrete separated contact (`q = 0`) adds nothing. -/
theorem addNonPenetration_skip_on_separation_witness :
    0 ≤ npDepth ⟨0,0,0⟩ ⟨2,0,0⟩ ⟨1,0,0⟩ ⟨1,0,0⟩ ⟨-1,0,0⟩ ∧
    ((Solver.init 0 0 1 0 0 none none).reset 2).addNonPenetrationConstraint
        0 1 ⟨0,0,0⟩ ⟨2,0,0⟩ ⟨1,0,0⟩ ⟨1,0,0⟩ ⟨-1,0,0⟩ ⟨1,1,1⟩ ⟨1,1,1⟩
        ⟨1,1,1⟩ ⟨1,1,1⟩ ⟨0,0,0⟩ ⟨0,0,0⟩ ⟨0,0,0⟩ ⟨0,0,0⟩ ⟨0,0,0⟩ ⟨0,0,0⟩
        ⟨0,0,0⟩ ⟨0,0,0⟩
      = (Solver.init 0 0 1 0 0 none none).reset 2 :=
  ⟨by norm_num [npDepth, Vec3.vadd, Vec3.vsub, Vec3.dot],
   addNonPenetration_skip_on_separation _ 0 1 _ _ _ _ _ _ _ _ _ _ _ _ _ _ _ _ _
     (by norm_num [npDepth, Vec3.vadd, Vec3.vsub, Vec3.dot])⟩

/-- C4 counterexample: a concrete penetrating contact (`q = -1 < 0`) is
added, yet the upper bound passed to `addConstraint` and stored is the
string sentinel `'inf'`, not `+Infinity`; accordingly the constraint is
recorded as having no upper bound, which the value `+Infinity` (not being
`NaN`) would not be. -/
theorem addNonPenetration_upper_not_infinity :
    (((Solver.init 0 0 1 0 0 none none).reset 2).addNonPenetrationConstraint
        0 1 ⟨0,0,0⟩ ⟨1,0,0⟩ ⟨1,0,0⟩ ⟨1,0,0⟩ ⟨-1,0,0⟩ ⟨1,1,1⟩ ⟨1,1,1⟩
        ⟨2,3,4⟩ ⟨5,6,7⟩ ⟨0,0,0⟩ ⟨0,0,0⟩ ⟨0,0,0⟩ ⟨0,0,0⟩ ⟨0,0,0⟩ ⟨0,0,0⟩
        ⟨0,0,0⟩ ⟨0,0,0⟩).n = 1 ∧
    (((Solver.init 0 0 1 0 0 none none).reset 2).addNonPenetrationConstraint
        0 1 ⟨0,0,0⟩ ⟨1,0,0⟩ ⟨1,0,0⟩ ⟨1,0,0⟩ ⟨-1,0,0⟩ ⟨1,1,1⟩ ⟨1,1,1⟩
        ⟨2,3,4⟩ ⟨5,6,7⟩ ⟨0,0,0⟩ ⟨0,0,0⟩ ⟨0,0,0⟩ ⟨0,0,0⟩ ⟨0,0,0⟩ ⟨0,0,0⟩
        ⟨0,0,0⟩ ⟨0,0,0⟩).upper.getD 0 JNum.nan ≠ JNum.inf ∧
    (((Solver.init 0 0 1 0 0 none none).reset 2).addNonPenetrationConstraint
        0 1 ⟨0,0,0⟩ ⟨1,0,0⟩ ⟨1,0,0⟩ ⟨1,0,0⟩ ⟨-1,0,0⟩ ⟨1,1,1⟩ ⟨1,1,1⟩
        ⟨2,3,4⟩ ⟨5,6,7⟩ ⟨0,0,0⟩ ⟨0,0,0⟩ ⟨0,0,0⟩ ⟨0,0,0⟩ ⟨0,0,0⟩ ⟨0,0,0⟩
        ⟨0,0,0⟩ ⟨0,0,0⟩).hasupper.getD 0 true = false := by
  refine ⟨?_, ?_, ?_⟩ <;>
    · simp only [Solver.addNonPenetrationConstraint]
      rw [if_pos (by norm_num [Vec3.vadd, Vec3.vsub, Vec3.dot])]
      simp [Solver.addConstraint, Solver.reset, Solver.init, JNum.jsIsNaN]

/-- C4 amended: every constraint added by `addNonPenetrationConstraint`
(when `q < 0`) is passed to `addConstraint` with Jacobian row
`[-ni, -(ri x ni), ni, ri x ni]` (the same `ri x ni` in both bodies'
angular blocks), violation row `[-qvec, 0,0,0, qvec, 0,0,0]`, lower bound
`0`, and as upper bound the string sentinel `'inf'` — a non-numeric value
that coerces to `NaN`, so the constraint is recorded as having no upper
bound (behaviourally unbounded above, but not the value `+Infinity`). -/
theorem addNonPenetration_adds_contact_rows (s : Solver) (bi bj : Int)
    (xi xj ni ri rj iMi iMj iIi iIj vi vj wi wj fi fj taui tauj : Vec3)
    (hq : npDepth xi xj ni ri rj < 0) :
    (s.addNonPenetrationConstraint bi bj xi xj ni ri rj iMi iMj iIi iIj
        vi vj wi wj fi fj taui tauj).G
      = s.G ++ [-ni.x, -ni.y, -ni.z,
          -(ri.cross ni).x, -(ri.cross ni).y, -(ri.cross ni).z,
          ni.x, ni.y, ni.z,
          (ri.cross ni).x, (ri.cross ni).y, (ri.cross ni).z] ∧
    (s.addNonPenetrationConstraint bi bj xi xj ni ri rj iMi iMj iIi iIj
        vi vj wi wj fi fj taui tauj).q
      = s.q ++ [-((xj.vadd rj).vsub (xi.vadd ri)).x,
          -((xj.vadd rj).vsub (xi.vadd ri)).y,
          -((xj.vadd rj).vsub (xi.vadd ri)).z, 0, 0, 0,
          ((xj.vadd rj).vsub (xi.vadd ri)).x,
          ((xj.vadd rj).vsub (xi.vadd ri)).y,
          ((xj.vadd rj).vsub (xi.vadd ri)).z, 0, 0, 0] ∧
    (s.addNonPenetrationConstraint bi bj xi xj ni ri rj iMi iMj iIi iIj
        vi vj wi wj fi fj taui tauj).lower = s.lower ++ [JNum.num 0] ∧
    (s.addNonPenetrationConstraint bi bj xi xj ni ri rj iMi iMj iIi iIj
        vi vj wi wj fi fj taui tauj).upper = s.upper ++ [JNum.strInf] ∧
    (s.addNonPenetrationConstraint bi bj xi xj ni ri rj iMi iMj iIi iIj
        vi vj wi wj fi fj taui tauj).haslower = s.haslower ++ [true] ∧
    (s.addNonPenetrationConstraint bi bj xi xj ni ri rj iMi iMj iIi iIj
        vi vj wi wj fi fj taui tauj).hasupper = s.hasupper ++ [false] ∧
    (s.addNonPenetrationConstraint bi bj xi xj ni ri rj iMi iMj iIi iIj
        vi vj wi wj fi fj taui tauj).i = s.i ++ [bi] ∧
    (s.addNonPenetrationConstraint bi bj xi xj ni ri rj iMi iMj iIi iIj
        vi vj wi wj fi fj taui tauj).j = s.j ++ [bj] := by
  simp only [Solver.addNonPenetrationConstraint]
  rw [if_pos (by simpa [npDepth] using hq)]
  refine ⟨?_, ?_, ?_, ?_, ?_, ?_, ?_, ?_⟩ <;>
    simp [Solver.addConstraint, npG, npQ, JNum.jsIsNaN, List.ofFn_succ]

/-- C4 amended witness: the appended rows at a concrete penetrating
contact. -/
theorem addNonPenetration_adds_contact_rows_witness :
    npDepth ⟨0,0,0⟩ ⟨1,0,0⟩ ⟨1,0,0⟩ ⟨1,0,0⟩ ⟨-1,0,0⟩ < 0 ∧
    (((Solver.init 0 0 1 0 0 none none).reset 2).addNonPenetrationConstraint
        0 1 ⟨0,0,0⟩ ⟨1,0,0⟩ ⟨1,0,0⟩ ⟨1,0,0⟩ ⟨-1,0,0⟩ ⟨1,1,1⟩ ⟨1,1,1⟩
        ⟨2,3,4⟩ ⟨5,6,7⟩ ⟨0,0,0⟩ ⟨0,0,0⟩ ⟨0,0,0⟩ ⟨0,0,0⟩ ⟨0,0,0⟩ ⟨0,0,0⟩
        ⟨0,0,0⟩ ⟨0,0,0⟩).upper
      = ((Solver.init 0 0 1 0 0 none none).reset 2).upper ++ [JNum.strInf] :=
  ⟨by norm_num [npDepth, Vec3.vadd, Vec3.vsub, Vec3.dot],
   (addNonPenetration_adds_contact_rows _ 0 1 ⟨0,0,0⟩ ⟨1,0,0⟩ ⟨1,0,0⟩
      ⟨1,0,0⟩ ⟨-1,0,0⟩ ⟨1,1,1⟩ ⟨1,1,1⟩ ⟨2,3,4⟩ ⟨5,6,7⟩ ⟨0,0,0⟩ ⟨0,0,0⟩
      ⟨0,0,0⟩ ⟨0,0,0⟩ ⟨0,0,0⟩ ⟨0,0,0⟩ ⟨0,0,0⟩ ⟨0,0,0⟩
      (by norm_num [npDepth, Vec3.vadd, Vec3.vsub, Vec3.dot])).2.2.2.1⟩

/-- C6 counterexample: `addConstraint` called with `upper = +Infinity`
records `hasupper = true` (the source tests `!isNaN(upper)`), although
`+Infinity` is not finite — the flag does not record finiteness, and an
unbounded side is not exactly one whose flag is false. -/
theorem addConstraint_infinity_flag_true :
    (((Solver.init 0 0 1 0 0 none none).reset 1).addConstraint
        (fun _ => 0) (fun _ => 0) (fun _ => 0) (fun _ => 0) (fun _ => 0)
        (JNum.num 0) JNum.inf 0 0).1.hasupper.getD 0 false = true ∧
    JNum.isFinite JNum.inf = false := by
  decide

/-- C6 amended: every `addConstraint` call increments `n` by one and
returns the previous `n` (the new constraint's index); it records
`haslower`/`hasupper` as `!isNaN(bound)` — `NaN` and the non-numeric
sentinel `'inf'` count as unbounded on that side, while `±Infinity`,
being non-`NaN`, is recorded as bounded. -/
theorem addConstraint_increments_and_flags (s : Solver)
    (G M q qd F : Fin 12 → ℚ) (lo up : JNum) (bi bj : Int)
    (hs : WellSized s) :
    (s.addConstraint G M q qd F lo up bi bj).1.n = s.n + 1 ∧
    (s.addConstraint G M q qd F lo up bi bj).2 = s.n ∧
    (s.addConstraint G M q qd F lo up bi bj).1.haslower.getD s.n false
      = !lo.jsIsNaN ∧
    (s.addConstraint G M q qd F lo up bi bj).1.hasupper.getD s.n false
      = !up.jsIsNaN ∧
    ((!lo.jsIsNaN) = false ↔ lo = JNum.nan ∨ lo = JNum.strInf) ∧
    ((!up.jsIsNaN) = false ↔ up = JNum.nan ∨ up = JNum.strInf) := by
  obtain ⟨h1, h2, h3, h4, h5, h6, h7, h8, h9, h10, h11⟩ := hs
  refine ⟨rfl, rfl, ?_, ?_, ?_, ?_⟩
  · rw [show (s.addConstraint G M q qd F lo up bi bj).1.haslower
        = s.haslower ++ [!lo.jsIsNaN] from rfl,
      List.getD_append_right _ _ _ _ h9.le, h9]
    simp
  · rw [show (s.addConstraint G M q qd F lo up bi bj).1.hasupper
        = s.hasupper ++ [!up.jsIsNaN] from rfl,
      List.getD_append_right _ _ _ _ h8.le, h8]
    simp
  · cases lo <;> simp [JNum.jsIsNaN]
  · cases up <;> simp [JNum.jsIsNaN]

/-- C6 amended witness: at a concrete well-sized state and `NaN` lower /
`+Infinity` upper bounds, the index comes back as `n - 1` and the flags
are `!isNaN` of each bound. -/
theorem addConstraint_increments_and_flags_witness :
    WellSized ((Solver.init 0 0 1 0 0 none none).reset 1) ∧
    (((Solver.init 0 0 1 0 0 none none).reset 1).addConstraint
        (fun _ => 0) (fun _ => 0) (fun _ => 0) (fun _ => 0) (fun _ => 0)
        JNum.nan JNum.inf 0 0).1.n
      = ((Solver.init 0 0 1 0 0 none none).reset 1).n + 1 ∧
    (((Solver.init 0 0 1 0 0 none none).reset 1).addConstraint
        (fun _ => 0) (fun _ => 0) (fun _ => 0) (fun _ => 0) (fun _ => 0)
        JNum.nan JNum.inf 0 0).1.haslower.getD
          ((Solver.init 0 0 1 0 0 none none).reset 1).n false
      = !JNum.jsIsNaN JNum.nan :=
  ⟨by decide,
   (addConstraint_increments_and_flags _ (fun _ => 0) (fun _ => 0)
      (fun _ => 0) (fun _ => 0) (fun _ => 0) JNum.nan JNum.inf 0 0
      (by decide)).1,
   (addConstraint_increments_and_flags _ (fun _ => 0) (fun _ => 0)
      (fun _ => 0) (fun _ => 0) (fun _ => 0) JNum.nan JNum.inf 0 0
      (by decide)).2.2.1⟩

/-- C3: the upper-bound clamp guard tests the `hasupper` flag array itself
(a JS object, hence truthy) rather than the per-constraint entry
`hasupper[l]`: for every constraint the clamp fires exactly when
`lambda[l] > upper[l]` (JS relational semantics), and the whole inner-loop
body is unchanged under arbitrary replacement of the `hasupper` array. -/
theorem upper_clamp_ignores_per_constraint_flag (s : Solver)
    (st : SolveState) (l : ℕ) (hu : List Bool) :
    (upperFires { s with hasupper := hu } st l
        = JNum.gtR (lamAfterLower s st l) (s.upper.getD l JNum.nan)) ∧
    solveStep { s with hasupper := hu } st l = solveStep s st l :=
  ⟨rfl, rfl⟩

/-- C10: whenever a bound clamp fires for constraint `l` — `lambda[l]`
below a present lower bound or above the upper bound — the recomputed
`dlambda[l]` is bound minus the already-overwritten `lambda[l]`, exactly
`0`, and the subsequent velocity-propagation step leaves all six per-body
delta arrays unchanged in this inner-loop pass.  (The `ratlike`
hypotheses restrict to bound values for which the `ℚ` model tracks the JS
arithmetic exactly.) -/
theorem clamp_zeroes_dlambda_and_propagation (s : Solver) (st : SolveState)
    (l : ℕ)
    (hfire : lowerFires s st l = true ∨ upperFires s st l = true)
    (hlo : (s.lower.getD l JNum.nan).ratlike)
    (hup : (s.upper.getD l JNum.nan).ratlike) :
    dlamFinal s st l = 0 ∧
    (solveStep s st l).vx = st.vx ∧ (solveStep s st l).vy = st.vy ∧
    (solveStep s st l).vz = st.vz ∧ (solveStep s st l).wx = st.wx ∧
    (solveStep s st l).wy = st.wy ∧ (solveStep s st l).wz = st.wz := by
  have hd : dlamFinal s st l = 0 := by
    by_cases h2 : upperFires s st l = true
    · simp [dlamFinal, lamFinal, h2]
    · rcases hfire with h | h
      · simp [dlamFinal, dlamAfterLower, lamFinal, lamAfterLower, h, h2]
      · exact absurd h h2
  refine ⟨hd, ?_, ?_, ?_, ?_, ?_, ?_⟩ <;>
    simp [solveStep, hd, zero_mul, addAt_zero]

/-- C10 witness: a concrete state in which the lower clamp fires
(`haslower = true`, `lower = 0`, and the unclamped update drives `lambda`
negative via a negative bias), with `NaN`-sentinel upper bound; the
propagation leaves the delta arrays untouched. -/
theorem clamp_zeroes_dlambda_and_propagation_witness :
    (lowerFires
        (((Solver.init (1 : ℚ) 0 1 0 0 (some 1) (some 1)).reset 1).addConstraint
          (fun _ => 1) (fun _ => 1) (fun _ => 1) (fun _ => 0) (fun _ => 0)
          (JNum.num 0) JNum.nan 0 0).1
        (initState
          (((Solver.init (1 : ℚ) 0 1 0 0 (some 1) (some 1)).reset 1).addConstraint
            (fun _ => 1) (fun _ => 1) (fun _ => 1) (fun _ => 0) (fun _ => 0)
            (JNum.num 0) JNum.nan 0 0).1) 0 = true ∨
      upperFires
        (((Solver.init (1 : ℚ) 0 1 0 0 (some 1) (some 1)).reset 1).addConstraint
          (fun _ => 1) (fun _ => 1) (fun _ => 1) (fun _ => 0) (fun _ => 0)
          (JNum.num 0) JNum.nan 0 0).1
        (initState
          (((Solver.init (1 : ℚ) 0 1 0 0 (some 1) (some 1)).reset 1).addConstraint
            (fun _ => 1) (fun _ => 1) (fun _ => 1) (fun _ => 0) (fun _ => 0)
            (JNum.num 0) JNum.nan 0 0).1) 0 = true) ∧
    dlamFinal
        (((Solver.init (1 : ℚ) 0 1 0 0 (some 1) (some 1)).reset 1).addConstraint
          (fun _ => 1) (fun _ => 1) (fun _ => 1) (fun _ => 0) (fun _ => 0)
          (JNum.num 0) JNum.nan 0 0).1
        (initState
          (((Solver.init (1 : ℚ) 0 1 0 0 (some 1) (some 1)).reset 1).addConstraint
            (fun _ => 1) (fun _ => 1) (fun _ => 1) (fun _ => 0) (fun _ => 0)
            (JNum.num 0) JNum.nan 0 0).1) 0 = 0 := by
  have hfire : lowerFires
      (((Solver.init (1 : ℚ) 0 1 0 0 (some 1) (some 1)).reset 1).addConstraint
        (fun _ => 1) (fun _ => 1) (fun _ => 1) (fun _ => 0) (fun _ => 0)
        (JNum.num 0) JNum.nan 0 0).1
      (initState
        (((Solver.init (1 : ℚ) 0 1 0 0 (some 1) (some 1)).reset 1).addConstraint
          (fun _ => 1) (fun _ => 1) (fun _ => 1) (fun _ => 0) (fun _ => 0)
          (JNum.num 0) JNum.nan 0 0).1) 0 = true := by
    norm_num [lowerFires, lamNew, dlamNew, cBUsed, precompVals, gMinvGt, gQ,
      gW, gMinvF, gu, Solver.initState, Solver.addConstraint, Solver.reset,
      Solver.init, Solver.bodyI, Solver.bodyJ, readBody, JNum.ltR,
      Finset.sum_range_succ, List.getD, List.ofFn_succ, JNum.jsIsNaN]
  exact ⟨Or.inl hfire,
    (clamp_zeroes_dlambda_and_propagation _ _ 0 (Or.inl hfire)
      (by simp [Solver.addConstraint, Solver.reset, Solver.init, JNum.ratlike, JNum.jsIsNaN])
      (by simp [Solver.addConstraint, Solver.reset, Solver.init, JNum.ratlike, JNum.jsIsNaN])).1⟩

theorem gu_eq_jacDotDeltas (s : Solver) (st : SolveState) (l : ℕ) :
    gu s st l = jacDotDeltas s st l := by
  simp [gu, jacDotDeltas, deltaAt, Finset.sum_range_succ]
  ring

/-- C1: the inner-loop body of `solve`.  On first touch of constraint `l`
(`precomp[l]` unset) it computes the four 12-slot sums and caches
`effectiveInverseMass` `c[l] = 1/(G_Minv_Gt + eps)` and `biasTerm`
`B[l] = -a*Gq - b*GW - h*GMinvf`, setting `precomp[l]`; with a coherent
cache it then updates, in every sweep,
`dlambda[l] = c[l] * (B[l] - Gu - eps*lambda[l])` and
`lambda[l] += dlambda[l]`, where `Gu` is the dot product of the
constraint's Jacobian row with the current per-body velocity deltas of
bodies `bodyIndexI` and `bodyIndexJ`.  (Stated on passes in which no
bound clamp fires; the clamped case is the subject of the clamp
theorems.) -/
theorem solveStep_update_equations (s : Solver) (st : SolveState) (l : ℕ)
    (hsz : SizedState s st) (hl : l < s.n) (hc : Cached s st l)
    (hlow : lowerFires s st l = false)
    (hup2 : upperFires s st l = false) :
    (solveStep s st l).c.getD l 0 = 1 / (gMinvGt s l + s.eps) ∧
    (solveStep s st l).B.getD l 0
      = -s.a * gQ s l - s.b * gW s l - s.h * gMinvF s l ∧
    (solveStep s st l).precomp.getD l false = true ∧
    gu s st l = jacDotDeltas s st l ∧
    (solveStep s st l).dlambda.getD l 0
      = (1 / (gMinvGt s l + s.eps)) *
          ((-s.a * gQ s l - s.b * gW s l - s.h * gMinvF s l)
            - jacDotDeltas s st l - s.eps * st.lambda.getD l 0) ∧
    (solveStep s st l).lambda.getD l 0
      = st.lambda.getD l 0 + (solveStep s st l).dlambda.getD l 0 := by
  obtain ⟨hlam, hdlam, hB, hcl, hpre⟩ := hsz
  have hcB : cBUsed s st l = (1 / (gMinvGt s l + s.eps),
      -s.a * gQ s l - s.b * gW s l - s.h * gMinvF s l) := by
    by_cases hp : st.precomp.getD l false = true
    · rw [cBUsed, if_pos hp, (hc hp).1, (hc hp).2]
      rfl
    · rw [cBUsed, if_neg hp]
      rfl
  have hdl : dlamFinal s st l
      = (1 / (gMinvGt s l + s.eps)) *
          ((-s.a * gQ s l - s.b * gW s l - s.h * gMinvF s l)
            - jacDotDeltas s st l - s.eps * st.lambda.getD l 0) := by
    rw [dlamFinal, if_neg (by simp [hup2]), dlamAfterLower,
      if_neg (by simp [hlow]), dlamNew, hcB, ← gu_eq_jacDotDeltas]
  have hlf : lamFinal s st l = st.lambda.getD l 0 + dlamFinal s st l := by
    rw [lamFinal, if_neg (by simp [hup2]), lamAfterLower,
      if_neg (by simp [hlow]), lamNew, dlamFinal,
      if_neg (by simp [hup2]), dlamAfterLower, if_neg (by simp [hlow])]
  by_cases hp : st.precomp.getD l false = true
  · have hp' : st.precomp[l]?.getD false = true := by simpa using hp
    have hcproj : (solveStep s st l).c = st.c := by simp [solveStep, hp']
    have hBproj : (solveStep s st l).B = st.B := by simp [solveStep, hp']
    have hpproj : (solveStep s st l).precomp = st.precomp := by
      simp [solveStep, hp']
    have hdproj : (solveStep s st l).dlambda
        = st.dlambda.set l (dlamFinal s st l) := by simp [solveStep, hp']
    have hlproj : (solveStep s st l).lambda
        = st.lambda.set l (lamFinal s st l) := by simp [solveStep, hp']
    refine ⟨?_, ?_, ?_, gu_eq_jacDotDeltas s st l, ?_, ?_⟩
    · rw [hcproj, (hc hp).1]
      rfl
    · rw [hBproj, (hc hp).2]
      rfl
    · rw [hpproj]
      exact hp
    · rw [hdproj, getD_set_self _ _ _ (by rw [hdlam]; exact hl)]
      exact hdl
    · rw [hlproj, getD_set_self _ _ _ (by rw [hlam]; exact hl),
        hdproj, getD_set_self _ _ _ (by rw [hdlam]; exact hl), hlf]
  · have hp2 : st.precomp.getD l false = false := Bool.of_not_eq_true hp
    have hp2' : st.precomp[l]?.getD false = false := by simpa using hp2
    have hcproj : (solveStep s st l).c = st.c.set l (precompVals s l).1 := by
      simp [solveStep, hp2']
    have hBproj : (solveStep s st l).B = st.B.set l (precompVals s l).2 := by
      simp [solveStep, hp2']
    have hpproj : (solveStep s st l).precomp = st.precomp.set l true := by
      simp [solveStep, hp2']
    have hdproj : (solveStep s st l).dlambda
        = st.dlambda.set l (dlamFinal s st l) := by simp [solveStep, hp2']
    have hlproj : (solveStep s st l).lambda
        = st.lambda.set l (lamFinal s st l) := by simp [solveStep, hp2']
    refine ⟨?_, ?_, ?_, gu_eq_jacDotDeltas s st l, ?_, ?_⟩
    · rw [hcproj, getD_set_self _ _ _ (by rw [hcl]; exact hl)]
      rfl
    · rw [hBproj, getD_set_self _ _ _ (by rw [hB]; exact hl)]
      rfl
    · rw [hpproj, getD_set_self _ _ _ (by rw [hpre]; exact hl)]
    · rw [hdproj, getD_set_self _ _ _ (by rw [hdlam]; exact hl)]
      exact hdl
    · rw [hlproj, getD_set_self _ _ _ (by rw [hlam]; exact hl),
        hdproj, getD_set_self _ _ _ (by rw [hdlam]; exact hl), hlf]

/-- C1 witness: a concrete one-constraint state (fresh `solve`-local
arrays, `NaN` bounds so that no clamp can fire) on which the inner-loop
body caches `c[0] = 1/(G_Minv_Gt + eps)`. -/
theorem solveStep_update_equations_witness :
    SizedState
      (((Solver.init 0 0 1 0 0 none none).reset 1).addConstraint
        (fun _ => 1) (fun _ => 1) (fun _ => 1) (fun _ => 1) (fun _ => 1)
        JNum.nan JNum.nan 0 0).1
      (initState
        (((Solver.init 0 0 1 0 0 none none).reset 1).addConstraint
          (fun _ => 1) (fun _ => 1) (fun _ => 1) (fun _ => 1) (fun _ => 1)
          JNum.nan JNum.nan 0 0).1) ∧
    0 < (((Solver.init 0 0 1 0 0 none none).reset 1).addConstraint
        (fun _ => 1) (fun _ => 1) (fun _ => 1) (fun _ => 1) (fun _ => 1)
        JNum.nan JNum.nan 0 0).1.n ∧
    (solveStep
        (((Solver.init 0 0 1 0 0 none none).reset 1).addConstraint
          (fun _ => 1) (fun _ => 1) (fun _ => 1) (fun _ => 1) (fun _ => 1)
          JNum.nan JNum.nan 0 0).1
        (initState
          (((Solver.init 0 0 1 0 0 none none).reset 1).addConstraint
            (fun _ => 1) (fun _ => 1) (fun _ => 1) (fun _ => 1) (fun _ => 1)
            JNum.nan JNum.nan 0 0).1) 0).c.getD 0 0
      = 1 / (gMinvGt
          (((Solver.init 0 0 1 0 0 none none).reset 1).addConstraint
            (fun _ => 1) (fun _ => 1) (fun _ => 1) (fun _ => 1) (fun _ => 1)
            JNum.nan JNum.nan 0 0).1 0
          + (((Solver.init 0 0 1 0 0 none none).reset 1).addConstraint
              (fun _ => 1) (fun _ => 1) (fun _ => 1) (fun _ => 1) (fun _ => 1)
              JNum.nan JNum.nan 0 0).1.eps) :=
  ⟨⟨by decide, by decide, by decide, by decide, by decide⟩, by decide,
   (solveStep_update_equations _ _ 0
      ⟨by decide, by decide, by decide, by decide, by decide⟩ (by decide)
      (fun hcontra => absurd hcontra (by decide)) (by decide) (by decide)).1⟩

theorem getD_replicate_zero (k m : ℕ) :
    (List.replicate k (0 : ℚ)).getD m 0 = 0 := by
  simp [List.getD_eq_getElem?_getD, List.getElem?_replicate]
  split <;> rfl

theorem solveStep_lambda_proj (s : Solver) (st : SolveState) (l : ℕ) :
    (solveStep s st l).lambda = st.lambda.set l (lamFinal s st l) := by
  by_cases hp : st.precomp[l]?.getD false = true <;> simp [solveStep, hp]

theorem lamFinal_nonneg (s : Solver) (st : SolveState) (l : ℕ)
    (hg : GoodL s l) : 0 ≤ lamFinal s st l := by
  obtain ⟨hhl, hl0, hup⟩ := hg
  by_cases hu : upperFires s st l = true
  · rw [lamFinal, if_pos hu]
    rcases hup with h | h | ⟨u, hu2, hu3⟩
    · rw [upperFires, h] at hu
      simp [JNum.gtR, arrayTruthy] at hu
    · rw [upperFires, h] at hu
      simp [JNum.gtR, arrayTruthy] at hu
    · rw [hu2]
      exact hu3
  · rw [lamFinal, if_neg hu]
    by_cases hlow : lowerFires s st l = true
    · rw [lamAfterLower, if_pos hlow, hl0]
      norm_num [JNum.ratOf]
    · rw [lamAfterLower, if_neg hlow]
      rw [lowerFires, hhl, hl0] at hlow
      simp [JNum.ltR] at hlow
      exact hlow

theorem lamInv_step (s : Solver) (st : SolveState) (l : ℕ)
    (h : LamInv s st) : LamInv s (solveStep s st l) := by
  intro m hm
  rw [solveStep_lambda_proj]
  by_cases he : l = m
  · subst he
    by_cases hll : l < st.lambda.length
    · rw [getD_set_self _ _ _ hll]
      exact lamFinal_nonneg s st l hm
    · rw [List.set_eq_of_length_le (Nat.le_of_not_lt hll)]
      exact h l hm
  · rw [getD_set_ne _ _ _ he]
    exact h m hm

theorem lamInv_fold (s : Solver) (L : List ℕ) (st : SolveState)
    (h : LamInv s st) : LamInv s (L.foldl (solveStep s) st) := by
  induction L generalizing st with
  | nil => exact h
  | cons a L2 ih => exact ih _ (lamInv_step s st a h)

theorem lamInv_loop (s : Solver) (kk : ℕ) (st : SolveState)
    (h : LamInv s st) : LamInv s (solveLoop s kk st) := by
  induction kk generalizing st with
  | zero => exact h
  | succ m ih => exact ih _ (lamInv_fold s _ st h)

theorem lamInv_initState (s : Solver) : LamInv s (initState s) := by
  intro l _
  rw [Solver.initState]
  exact le_of_eq (getD_replicate_zero s.n l).symm

/-- C5 amended: for every constraint whose `haslower` flag is set with
`lower[l] = 0` and whose upper bound cannot clamp below zero (`NaN`-like,
for which no upper clamp fires, or a non-negative number), `lambda[l]` is
non-negative after every inner-loop body of `solve` — from the
zero-initialised state onward — and in particular when `solve` returns.
(The `RatlikeBounds`/`InRangeIdx` hypotheses restrict to states on which
the `ℚ` model tracks the JS arithmetic exactly; without the upper-bound
proviso the claim is false, see the counterexample.) -/
theorem lambda_nonneg_with_upper_proviso (s : Solver)
    (hrb : RatlikeBounds s) (hidx : InRangeIdx s) :
    (∀ st l, LamInv s st → LamInv s (solveStep s st l)) ∧
    LamInv s (initState s) ∧
    (∀ l, GoodL s l → 0 ≤ ((s.solve).2).lambda.getD l 0) := by
  refine ⟨fun st l h => lamInv_step s st l h, lamInv_initState s, ?_⟩
  intro l hg
  have hmain : LamInv { s with i := s.i.map toInt16 }
      ((s.solve).2) := by
    exact lamInv_loop { s with i := s.i.map toInt16 } _ _
      (lamInv_initState { s with i := s.i.map toInt16 })
  exact hmain l hg

/-- C5 counterexample: a constraint with `haslower = true`, `lower = 0`
but a negative numeric upper bound `-5`.  Because the upper clamp fires
whenever `lambda[l] > upper[l]` (the flag array being truthy), one
iteration of `solve` drags `lambda[0]` down to `-5 < 0`: the claim that
`lower = 0` alone forces a non-negative impulse is false. -/
theorem solve_lambda_negative_under_negative_upper :
    (((Solver.init 0 0 1 0 0 (some 1) (some 1)).reset 1).addConstraint
        (fun _ => 0) (fun _ => 0) (fun _ => 0) (fun _ => 0) (fun _ => 0)
        (JNum.num 0) (JNum.num (-5)) 0 0).1.haslower.getD 0 false = true ∧
    (((Solver.init 0 0 1 0 0 (some 1) (some 1)).reset 1).addConstraint
        (fun _ => 0) (fun _ => 0) (fun _ => 0) (fun _ => 0) (fun _ => 0)
        (JNum.num 0) (JNum.num (-5)) 0 0).1.lower.getD 0 JNum.nan
      = JNum.num 0 ∧
    (((((Solver.init 0 0 1 0 0 (some 1) (some 1)).reset 1).addConstraint
        (fun _ => 0) (fun _ => 0) (fun _ => 0) (fun _ => 0) (fun _ => 0)
        (JNum.num 0) (JNum.num (-5)) 0 0).1.solve).2).lambda.getD 0 0
      < 0 := by
  refine ⟨by decide, rfl, ?_⟩
  have h1 : ((((Solver.init 0 0 1 0 0 (some 1) (some 1)).reset 1).addConstraint
      (fun _ => 0) (fun _ => 0) (fun _ => 0) (fun _ => 0) (fun _ => 0)
      (JNum.num 0) (JNum.num (-5)) 0 0).1.solve).2
      = solveStep
          { (((Solver.init 0 0 1 0 0 (some 1) (some 1)).reset 1).addConstraint
              (fun _ => 0) (fun _ => 0) (fun _ => 0) (fun _ => 0) (fun _ => 0)
              (JNum.num 0) (JNum.num (-5)) 0 0).1 with
            i := (((Solver.init 0 0 1 0 0 (some 1) (some 1)).reset 1).addConstraint
              (fun _ => 0) (fun _ => 0) (fun _ => 0) (fun _ => 0) (fun _ => 0)
              (JNum.num 0) (JNum.num (-5)) 0 0).1.i.map toInt16 }
          (initState
            { (((Solver.init 0 0 1 0 0 (some 1) (some 1)).reset 1).addConstraint
                (fun _ => 0) (fun _ => 0) (fun _ => 0) (fun _ => 0) (fun _ => 0)
                (JNum.num 0) (JNum.num (-5)) 0 0).1 with
              i := (((Solver.init 0 0 1 0 0 (some 1) (some 1)).reset 1).addConstraint
                (fun _ => 0) (fun _ => 0) (fun _ => 0) (fun _ => 0) (fun _ => 0)
                (JNum.num 0) (JNum.num (-5)) 0 0).1.i.map toInt16 }) 0 := rfl
  rw [h1, solveStep_lambda_proj]
  rw [getD_set_self _ _ _ (by decide)]
  norm_num [lamFinal, upperFires, lamAfterLower, lowerFires, lamNew,
    dlamNew, cBUsed, precompVals, gMinvGt, gQ, gW, gMinvF, gu, arrayTruthy,
    JNum.gtR, JNum.ltR, JNum.ratOf, JNum.jsIsNaN, Solver.initState,
    Solver.addConstraint, Solver.reset, Solver.init, Solver.bodyI,
    Solver.bodyJ, readBody, toInt16, Finset.sum_range_succ, List.ofFn_succ]

/-- C5 amended witness: a concrete unilateral constraint (`lower = 0`,
`NaN` upper sentinel, valid indices) for which the impulse after `solve`
is non-negative. -/
theorem lambda_nonneg_with_upper_proviso_witness :
    RatlikeBounds (((Solver.init 0 0 1 0 0 (some 2) (some 1)).reset 1).addConstraint
      (fun _ => 1) (fun _ => 1) (fun _ => 1) (fun _ => 0) (fun _ => 0)
      (JNum.num 0) JNum.nan 0 0).1 ∧
    InRangeIdx (((Solver.init 0 0 1 0 0 (some 2) (some 1)).reset 1).addConstraint
      (fun _ => 1) (fun _ => 1) (fun _ => 1) (fun _ => 0) (fun _ => 0)
      (JNum.num 0) JNum.nan 0 0).1 ∧
    GoodL (((Solver.init 0 0 1 0 0 (some 2) (some 1)).reset 1).addConstraint
      (fun _ => 1) (fun _ => 1) (fun _ => 1) (fun _ => 0) (fun _ => 0)
      (JNum.num 0) JNum.nan 0 0).1 0 ∧
    0 ≤ (((((Solver.init 0 0 1 0 0 (some 2) (some 1)).reset 1).addConstraint
      (fun _ => 1) (fun _ => 1) (fun _ => 1) (fun _ => 0) (fun _ => 0)
      (JNum.num 0) JNum.nan 0 0).1.solve).2).lambda.getD 0 0 := by
  have hrb : RatlikeBounds (((Solver.init 0 0 1 0 0 (some 2) (some 1)).reset 1).addConstraint
      (fun _ => 1) (fun _ => 1) (fun _ => 1) (fun _ => 0) (fun _ => 0)
      (JNum.num 0) JNum.nan 0 0).1 := by
    intro l
    cases l <;> exact ⟨trivial, trivial⟩
  have hidx : InRangeIdx (((Solver.init 0 0 1 0 0 (some 2) (some 1)).reset 1).addConstraint
      (fun _ => 1) (fun _ => 1) (fun _ => 1) (fun _ => 0) (fun _ => 0)
      (JNum.num 0) JNum.nan 0 0).1 := by
    intro l hl
    have hl0 : l = 0 := Nat.lt_one_iff.mp hl
    subst hl0
    refine ⟨by decide, by decide, by decide, by decide, by decide⟩
  have hg : GoodL (((Solver.init 0 0 1 0 0 (some 2) (some 1)).reset 1).addConstraint
      (fun _ => 1) (fun _ => 1) (fun _ => 1) (fun _ => 0) (fun _ => 0)
      (JNum.num 0) JNum.nan 0 0).1 0 := ⟨by decide, rfl, Or.inl rfl⟩
  exact ⟨hrb, hidx, hg,
    (lambda_nonneg_with_upper_proviso _ hrb hidx).2.2 0 hg⟩

theorem solveStep_acc_proj (s : Solver) (st : SolveState) (l : ℕ) :
    (solveStep s st l).acc = st.acc ++ [s.bodyI l, s.bodyJ l] := by
  by_cases hp : st.precomp[l]?.getD false = true <;> simp [solveStep, hp]

theorem acc_mono_step (s : Solver) (st : SolveState) (l : ℕ) (x : Int)
    (hx : x ∈ st.acc) : x ∈ (solveStep s st l).acc := by
  rw [solveStep_acc_proj]
  exact List.mem_append_left _ hx

theorem bodyJ_mem_step_acc (s : Solver) (st : SolveState) (l : ℕ) :
    s.bodyJ l ∈ (solveStep s st l).acc := by
  rw [solveStep_acc_proj]
  exact List.mem_append_right _ (by simp)

theorem acc_mono_fold (s : Solver) (L : List ℕ) (st : SolveState) (x : Int)
    (hx : x ∈ st.acc) : x ∈ ((L.foldl (solveStep s) st).acc) := by
  induction L generalizing st with
  | nil => exact hx
  | cons a L2 ih => exact ih _ (acc_mono_step s st a x hx)

theorem bodyJ_mem_fold_acc (s : Solver) (L : List ℕ) (st : SolveState)
    (l : ℕ) (hl : l ∈ L) : s.bodyJ l ∈ ((L.foldl (solveStep s) st).acc) := by
  induction L generalizing st with
  | nil => cases hl
  | cons a L2 ih =>
      rcases List.mem_cons.mp hl with h | h
      · subst h
        exact acc_mono_fold s L2 _ _ (bodyJ_mem_step_acc s st l)
      · exact ih _ h

theorem acc_mono_loop (s : Solver) (kk : ℕ) (st : SolveState) (x : Int)
    (hx : x ∈ st.acc) : x ∈ ((solveLoop s kk st).acc) := by
  induction kk generalizing st with
  | zero => exact hx
  | succ m ih => exact ih _ (acc_mono_fold s _ st x hx)

/-- C9 counterexample: a concrete constraint with `bodyIndexJ = -1` and
one iteration; `solve` performs a delta-array access group at index `-1`
(the access log contains `-1`), contradicting the claim that no read or
write of a delta array at index `-1` occurs. -/
theorem solve_accesses_index_minus_one_concrete :
    (-1 : Int) ∈
      (((((Solver.init 0 0 1 0 0 (some 1) (some 1)).reset 1).addConstraint
        (fun _ => 0) (fun _ => 0) (fun _ => 0) (fun _ => 0) (fun _ => 0)
        (JNum.num 0) JNum.strInf 0 (-1)).1.solve).2).acc := by
  decide

/-- C9 amended: for a constraint with `bodyIndexJ = -1` the inner loop
does access the per-body delta arrays at index `-1` in every sweep: body
`j`'s six slots are read and written unconditionally (JS typed arrays
return `undefined` for the reads and drop the writes), so with at least
one iteration the access log of `solve` contains `-1`. -/
theorem solve_accesses_index_minus_one (s : Solver) (l : ℕ)
    (hl : l < s.n) (hj : s.bodyJ l = -1) (hit : 1 ≤ s.iterations) :
    (-1 : Int) ∈ ((s.solve).2).acc := by
  obtain ⟨kk, hk⟩ : ∃ kk, s.iterations = kk + 1 :=
    ⟨s.iterations - 1, by omega⟩
  have h2 : (s.solve).2
      = solveLoop { s with i := s.i.map toInt16 } kk
          (sweep { s with i := s.i.map toInt16 }
            (initState { s with i := s.i.map toInt16 })) := by
    show solveLoop { s with i := s.i.map toInt16 } s.iterations
        (initState { s with i := s.i.map toInt16 }) = _
    rw [hk]
    rfl
  rw [h2]
  apply acc_mono_loop
  have hjc : Solver.bodyJ { s with i := s.i.map toInt16 } l = -1 := hj
  rw [← hjc]
  exact bodyJ_mem_fold_acc _ _ _ _ (List.mem_range.mpr hl)

/-- C9 amended witness: the concrete `bodyIndexJ = -1` constraint hits
the hypotheses, and `-1` is in the access log. -/
theorem solve_accesses_index_minus_one_witness :
    0 < (((Solver.init 0 0 1 0 0 (some 2) (some 1)).reset 1).addConstraint
      (fun _ => 1) (fun _ => 1) (fun _ => 1) (fun _ => 1) (fun _ => 1)
      (JNum.num 0) JNum.strInf 0 (-1)).1.n ∧
    Solver.bodyJ (((Solver.init 0 0 1 0 0 (some 2) (some 1)).reset 1).addConstraint
      (fun _ => 1) (fun _ => 1) (fun _ => 1) (fun _ => 1) (fun _ => 1)
      (JNum.num 0) JNum.strInf 0 (-1)).1 0 = -1 ∧
    (-1 : Int) ∈
      (((((Solver.init 0 0 1 0 0 (some 2) (some 1)).reset 1).addConstraint
        (fun _ => 1) (fun _ => 1) (fun _ => 1) (fun _ => 1) (fun _ => 1)
        (JNum.num 0) JNum.strInf 0 (-1)).1.solve).2).acc :=
  ⟨by decide, by decide,
   solve_accesses_index_minus_one _ 0 (by decide) (by decide) (by decide)⟩
